import Mathlib

/-
Verification of the voting aggregation engine of the openjury repository
(src/openjury/voting.py, src/openjury/output_format.py, src/openjury/config.py)
against its natural-language specification.

Modelling conventions:
  - Python floats are modelled as exact rationals.
  - Python dicts are modelled as association lists with unique keys;
    lookup is first-match, matching dict semantics.
  - Fallible Python code (raise ValueError) is modelled with Except.
  - The Python function VotingAggregator.aggregate has no else branch:
    on a method value outside the enum it falls off the end and returns
    None.  Its result type is therefore Except VoteError (Option VotingResult),
    where .ok none models the implicit Python return of None.
  - voting.py builds the list of response ids as list(set(...)).  CPython
    set iteration order over strings is an arbitrary, hash-seed dependent
    permutation of the inserted elements, NOT first-insertion order.  Each
    strategy is therefore defined in two layers: a ...With function taking
    the id enumeration explicitly, and a top-level function instantiating
    it at the deterministic first-seen enumeration (firstDedup), the
    canonical permutation.  Facts that depend on the enumeration order are
    proved about the parametric layer.
-/

namespace OpenJury

/-- Scores of one response under one juror: criterion name to score
(inner dict of JurorEvaluation.response_scores). -/
abbrev CritScores := List (String × ℚ)

/-- Mapping response id to per-criterion scores (the response_scores dict). -/
abbrev RespScores := List (String × CritScores)

/-- One juror's judgment (class JurorEvaluation, voting.py lines 22-31).
The source constructor stores the three fields without any validation. -/
structure JurorEvaluation where
  juror_name : String
  response_scores : RespScores
  juror_weight : ℚ
deriving DecidableEq

/-- A method value as seen at runtime.  The first six constructors are the
members of the VotingMethod enum (config.py); other models a runtime value
outside the enum, which Python's dynamic typing permits (e.g. a raw string
passed to aggregate, or a hand-constructed VotingResult bypassing
validation via model_construct). -/
inductive PyMethod where
  | majority
  | average
  | weighted
  | ranked
  | consensus
  | custom
  | other (s : String)
deriving DecidableEq

/-- Output of one aggregation pass (class VotingResult, voting.py lines 10-19).
The custom_data payload of arbitrary values is modelled as string pairs. -/
structure VotingResult where
  winner : String
  vote_counts : Option (List (String × Nat)) := none
  method : PyMethod
  average_scores : Option (List (String × ℚ)) := none
  weighted_scores : Option (List (String × ℚ)) := none
  ranked_scores : Option (List (String × ℚ)) := none
  consensus_scores : Option (List (String × ℚ)) := none
  custom_scores : Option (List (String × ℚ)) := none
  custom_data : Option (List (String × String)) := none
deriving DecidableEq

/-- The error kinds raised by the aggregation core (all are ValueError in
the source, distinguished by message). -/
inductive VoteError where
  | emptyInput
  | noResponses
  | unknownStrategy (name : String)
  | invalidStrategyResult (name : String)
  | missingStrategyName
deriving DecidableEq

/-- Deduplication keeping the first occurrence of each element, in order.
This is the canonical (first-seen) enumeration of response ids; the source
computes some hash-dependent permutation of it via list(set(...)). -/
def firstDedup : List String → List String
  | [] => []
  | x :: xs => x :: (firstDedup xs).filter (fun y => y ≠ x)

/-- The union of response ids over an evaluation sequence, in first-seen
order (voting.py builds this union as a Python set). -/
def responseIds (evaluations : List JurorEvaluation) : List String :=
  firstDedup (evaluations.flatMap (fun e => e.response_scores.map Prod.fst))

/-- Python dict access d.get(key) / d[key] on an association list with
unique keys: first matching entry. -/
def lookupKey {A : Type} : List (String × A) → String → Option A
  | [], _ => none
  | (k, v) :: rest, key => if key = k then some v else lookupKey rest key

/-- Sum of the values of a criterion-score dict (sum(d.values())). -/
def sumValues (m : CritScores) : ℚ :=
  (m.map Prod.snd).sum

/-- A juror's total score for a response: sum of the per-criterion scores
if the juror scored the response, else 0 (the missing-equals-zero policy,
voting.py lines 50-55 and analogues). -/
def totalScore (e : JurorEvaluation) (rid : String) : ℚ :=
  match lookupKey e.response_scores rid with
  | some crits => sumValues crits
  | none => 0

/-- Python max(items, key=lambda x: x[1]) over a list of pairs: the first
pair attaining the maximal second component (max only replaces the current
best on a strictly greater key).  none on the empty list (Python raises). -/
def argmaxFirst {β : Type} [LinearOrder β] : List (String × β) → Option (String × β)
  | [] => none
  | x :: xs => some (xs.foldl (fun best y => if best.2 < y.2 then y else best) x)

/-- Key of the first maximal pair, defaulting to the empty string on the
empty list (the default is never reached at guarded call sites). -/
def argmaxKey {β : Type} [LinearOrder β] (l : List (String × β)) : String :=
  ((argmaxFirst l).map Prod.fst).getD ""

/-- The response-totals dict one juror builds in majority_vote: the given
id enumeration paired with that juror's totals (voting.py lines 49-55). -/
def perJurorTotals (ids : List String) (e : JurorEvaluation) : List (String × ℚ) :=
  ids.map (fun rid => (rid, totalScore e rid))

/-- Counter(juror_votes) as a dict in first-encounter key order
(voting.py line 58). -/
def voteCounts (votes : List String) : List (String × Nat) :=
  (firstDedup votes).map (fun v => (v, votes.count v))

/-- Counter.most_common(1)[0][0]: most_common sorts by count descending
with a stable sort, so ties keep first-encounter order; this is the first
pair of maximal count (voting.py line 59). -/
def majorityWinner (votes : List String) : String :=
  argmaxKey (voteCounts votes)

/-- Body of VotingAggregator.majority_vote (voting.py lines 37-63),
parametric in the enumeration order of the response-id set. -/
def majorityVoteWith (evaluations : List JurorEvaluation) (ids : List String) :
    Except VoteError VotingResult :=
  if evaluations = [] then .error .emptyInput
  else if ids = [] then .error .noResponses
  else
    let votes := evaluations.map (fun e => argmaxKey (perJurorTotals ids e))
    .ok { winner := majorityWinner votes, vote_counts := some (voteCounts votes),
          method := .majority }

/-- VotingAggregator.majority_vote at the canonical id enumeration. -/
def majority_vote (evaluations : List JurorEvaluation) : Except VoteError VotingResult :=
  majorityVoteWith evaluations (responseIds evaluations)

/-- Arithmetic mean (statistics.mean); the empty case is guarded at every
call site, as in the source. -/
def meanQ (l : List ℚ) : ℚ :=
  l.sum / l.length

/-- The response_averages dict of average_vote (voting.py lines 77-86). -/
def averageScoresMap (evaluations : List JurorEvaluation) (ids : List String) :
    List (String × ℚ) :=
  ids.map (fun rid => (rid, meanQ (evaluations.map (fun e => totalScore e rid))))

/-- Body of VotingAggregator.average_vote (voting.py lines 65-91). -/
def averageVoteWith (evaluations : List JurorEvaluation) (ids : List String) :
    Except VoteError VotingResult :=
  if evaluations = [] then .error .emptyInput
  else if ids = [] then .error .noResponses
  else
    .ok { winner := argmaxKey (averageScoresMap evaluations ids),
          method := .average,
          average_scores := some (averageScoresMap evaluations ids) }

/-- VotingAggregator.average_vote at the canonical id enumeration. -/
def average_vote (evaluations : List JurorEvaluation) : Except VoteError VotingResult :=
  averageVoteWith evaluations (responseIds evaluations)

/-- Sum of all juror weights (voting.py line 108). -/
def totalWeight (evaluations : List JurorEvaluation) : ℚ :=
  (evaluations.map (fun e => e.juror_weight)).sum

/-- One juror's contribution to a response's weighted score: skipped when
the juror did not score the response (voting.py lines 111-114). -/
def weightedContrib (rid : String) (e : JurorEvaluation) : ℚ :=
  match lookupKey e.response_scores rid with
  | some crits => sumValues crits * e.juror_weight
  | none => 0

/-- The response_weighted_scores dict of weighted_vote (voting.py lines
107-117): accumulated weighted score divided by the total weight when that
is positive, else 0. -/
def weightedScoresMap (evaluations : List JurorEvaluation) (ids : List String) :
    List (String × ℚ) :=
  ids.map (fun rid =>
    (rid, if 0 < totalWeight evaluations then
            (evaluations.map (weightedContrib rid)).sum / totalWeight evaluations
          else 0))

/-- Body of VotingAggregator.weighted_vote (voting.py lines 93-125). -/
def weightedVoteWith (evaluations : List JurorEvaluation) (ids : List String) :
    Except VoteError VotingResult :=
  if evaluations = [] then .error .emptyInput
  else if ids = [] then .error .noResponses
  else
    .ok { winner := argmaxKey (weightedScoresMap evaluations ids),
          method := .weighted,
          weighted_scores := some (weightedScoresMap evaluations ids) }

/-- VotingAggregator.weighted_vote at the canonical id enumeration. -/
def weighted_vote (evaluations : List JurorEvaluation) : Except VoteError VotingResult :=
  weightedVoteWith evaluations (responseIds evaluations)

/-- The response_ranks dict of ranked_vote (voting.py lines 139-148); the
source duplicates the mean-of-totals computation of average_vote. -/
def rankedScoresMap (evaluations : List JurorEvaluation) (ids : List String) :
    List (String × ℚ) :=
  ids.map (fun rid => (rid, meanQ (evaluations.map (fun e => totalScore e rid))))

/-- Body of VotingAggregator.ranked_vote (voting.py lines 127-152). -/
def rankedVoteWith (evaluations : List JurorEvaluation) (ids : List String) :
    Except VoteError VotingResult :=
  if evaluations = [] then .error .emptyInput
  else if ids = [] then .error .noResponses
  else
    .ok { winner := argmaxKey (rankedScoresMap evaluations ids),
          method := .ranked,
          ranked_scores := some (rankedScoresMap evaluations ids) }

/-- VotingAggregator.ranked_vote at the canonical id enumeration. -/
def ranked_vote (evaluations : List JurorEvaluation) : Except VoteError VotingResult :=
  rankedVoteWith evaluations (responseIds evaluations)

/-- The response_consensus dict of consensus_vote (voting.py lines
166-175); again a duplicate of the mean-of-totals computation. -/
def consensusScoresMap (evaluations : List JurorEvaluation) (ids : List String) :
    List (String × ℚ) :=
  ids.map (fun rid => (rid, meanQ (evaluations.map (fun e => totalScore e rid))))

/-- Body of VotingAggregator.consensus_vote (voting.py lines 154-181). -/
def consensusVoteWith (evaluations : List JurorEvaluation) (ids : List String) :
    Except VoteError VotingResult :=
  if evaluations = [] then .error .emptyInput
  else if ids = [] then .error .noResponses
  else
    .ok { winner := argmaxKey (consensusScoresMap evaluations ids),
          method := .consensus,
          consensus_scores := some (consensusScoresMap evaluations ids) }

/-- VotingAggregator.consensus_vote at the canonical id enumeration. -/
def consensus_vote (evaluations : List JurorEvaluation) : Except VoteError VotingResult :=
  consensusVoteWith evaluations (responseIds evaluations)

/-- A value returned by a registered custom function: either an actual
VotingResult instance or anything else (Python is dynamically typed). -/
inductive PyValue where
  | result (r : VotingResult)
  | other

/-- Type of a registered custom strategy function. -/
abbrev CustomFn := List JurorEvaluation → PyValue

/-- The class-level dict VotingAggregator._custom_functions, passed as
explicit state. -/
abbrev Registry := String → Option CustomFn

/-- The registry with nothing registered. -/
def emptyRegistry : Registry := fun _ => none

/-- VotingAggregator.register_custom_function (voting.py lines 183-187):
insert or overwrite. -/
def register_custom_function (R : Registry) (name : String) (f : CustomFn) : Registry :=
  fun m => if m = name then some f else R m

/-- VotingAggregator.unregister_custom_function (voting.py lines 189-191):
dict.pop with default, removes if present, no-op otherwise. -/
def unregister_custom_function (R : Registry) (name : String) : Registry :=
  fun m => if m = name then none else R m

/-- VotingAggregator.custom_vote (voting.py lines 197-212): fails if the
name is unregistered; calls the function; fails if the returned value is
not a VotingResult; otherwise returns the result unchanged.  Note there is
no emptiness or response check on the evaluations. -/
def custom_vote (R : Registry) (evaluations : List JurorEvaluation)
    (function_name : String) : Except VoteError VotingResult :=
  match R function_name with
  | none => .error (.unknownStrategy function_name)
  | some f =>
    match f evaluations with
    | .result r => .ok r
    | .other => .error (.invalidStrategyResult function_name)

/-- Python truthiness of the optional custom_function_name argument: both
None and the empty string are falsy (voting.py line 232). -/
def optNameFalsy : Option String → Bool
  | none => true
  | some s => s = ""

/-- VotingAggregator.aggregate (voting.py lines 214-237).  The if/elif
chain has no else branch: a method value matching none of the six enum
members falls off the end of the function, which in Python returns None;
this is modelled by .ok none, while every explicit branch wraps its
VotingResult in some. -/
def aggregate (R : Registry) (evaluations : List JurorEvaluation)
    (method : PyMethod) (custom_function_name : Option String) :
    Except VoteError (Option VotingResult) :=
  match method with
  | .majority => (majority_vote evaluations).map some
  | .average => (average_vote evaluations).map some
  | .weighted => (weighted_vote evaluations).map some
  | .ranked => (ranked_vote evaluations).map some
  | .consensus => (consensus_vote evaluations).map some
  | .custom =>
    if optNameFalsy custom_function_name then .error .missingStrategyName
    else (custom_vote R evaluations (custom_function_name.getD "")).map some
  | .other _ => .ok none

/-- Python sorted(values, reverse=True): the score values in descending
order (output_format.py, each confidence branch). -/
def sortedDesc (l : List ℚ) : List ℚ :=
  List.insertionSort (fun a b : ℚ => b ≤ a) l

/-- Errors of VerdictFormatter.calculate_confidence: the explicit
ValueError of the final else branch (unknown method), and the TypeError
Python raises when the branch reads a score map that is None. -/
inductive ConfError where
  | unknownMethod (m : PyMethod)
  | noneType
deriving DecidableEq

/-- The gap-over-top confidence shared by the score-map branches of
calculate_confidence (output_format.py lines 116-123 and duplicates):
sort descending, top minus runner-up over top, clamped at 1, and 1.0 when
the top score is not positive.  Call sites guard the length. -/
def gapConfidence (scores : List (String × ℚ)) : ℚ :=
  let sorted := sortedDesc (scores.map Prod.snd)
  let winner_score := sorted.headD 0
  let runner_up_score := sorted.getD 1 0
  if 0 < winner_score then min ((winner_score - runner_up_score) / winner_score) 1
  else 1

/-- VerdictFormatter.calculate_confidence (output_format.py lines
102-188).  The juror_verdicts parameter of the source is never read and
is omitted.  Branches that dereference a score map that is None model the
resulting Python TypeError as ConfError.noneType; in the custom branch the
None map is handled by the truthiness test and yields the 0.75 fallback. -/
def calculate_confidence (r : VotingResult) : Except ConfError ℚ :=
  match r.method with
  | .majority =>
    match r.vote_counts with
    | none => .error .noneType
    | some vc =>
      let total_votes := (vc.map Prod.snd).sum
      let winner_votes := (lookupKey vc r.winner).getD 0
      .ok (if 0 < total_votes then (winner_votes : ℚ) / (total_votes : ℚ) else 0)
  | .average =>
    match r.average_scores with
    | none => .error .noneType
    | some scores =>
      .ok (if scores.length < 2 then 1 else gapConfidence scores)
  | .weighted =>
    match r.weighted_scores with
    | none => .error .noneType
    | some scores =>
      .ok (if scores.length < 2 then 1 else gapConfidence scores)
  | .ranked =>
    match r.ranked_scores with
    | none => .error .noneType
    | some scores =>
      .ok (if scores.length < 2 then 1 else gapConfidence scores)
  | .consensus =>
    match r.consensus_scores with
    | none => .error .noneType
    | some scores =>
      .ok (if scores.length < 2 then 1 else gapConfidence scores)
  | .custom =>
    match r.custom_scores with
    | none => .ok (3 / 4)
    | some scores =>
      .ok (if 2 ≤ scores.length then gapConfidence scores else 3 / 4)
  | .other s => .error (.unknownMethod (.other s))

/-- The fields of JurorConfig relevant to weights (config.py lines 76-91);
pydantic validates weight with ge=0 at construction. -/
structure JurorConfig where
  name : String
  weight : ℚ
deriving DecidableEq

/-- Pydantic construction of a JurorConfig: the weight field carries the
constraint ge=0, so construction fails on a negative weight (config.py
lines 89-91). -/
def mkJurorConfig (name : String) (weight : ℚ) : Option JurorConfig :=
  if 0 ≤ weight then some { name := name, weight := weight } else none

/-- Construction of a JurorEvaluation by the engine (jury_engine.py lines
112-115 and 131-134): the juror weight is copied from the juror's
validated configuration. -/
def engineEvaluation (config : JurorConfig) (scores : RespScores) : JurorEvaluation :=
  { juror_name := config.name, response_scores := scores, juror_weight := config.weight }

/-- The fold step of Python max over pairs keyed by the second component. -/
def maxStep {β : Type} [LinearOrder β] (best y : String × β) : String × β :=
  if best.2 < y.2 then y else best

lemma argmaxFirst_eq_foldl {β : Type} [LinearOrder β] (x : String × β) (xs : List (String × β)) :
    argmaxFirst (x :: xs) = some (xs.foldl maxStep x) := by
  rfl

lemma foldl_maxStep_mem {β : Type} [LinearOrder β] (xs : List (String × β)) (x : String × β) :
    xs.foldl maxStep x = x ∨ xs.foldl maxStep x ∈ xs := by
  induction xs generalizing x with
  | nil => left; rfl
  | cons y ys ih =>
    rw [List.foldl_cons]
    rcases ih (maxStep x y) with h | h
    · rw [h]
      unfold maxStep
      split
      · right; exact List.mem_cons_self y ys
      · left; rfl
    · right; exact List.mem_cons_of_mem y h

lemma le_foldl_maxStep {β : Type} [LinearOrder β] (xs : List (String × β)) (x : String × β) :
    x.2 ≤ (xs.foldl maxStep x).2 ∧ ∀ q ∈ xs, q.2 ≤ (xs.foldl maxStep x).2 := by
  induction xs generalizing x with
  | nil => exact ⟨le_refl _, by intro q hq; cases hq⟩
  | cons y ys ih =>
    rw [List.foldl_cons]
    obtain ⟨h1, h2⟩ := ih (maxStep x y)
    have hx : x.2 ≤ (maxStep x y).2 := by
      unfold maxStep; split
      · exact le_of_lt (by assumption)
      · exact le_refl _
    have hy : y.2 ≤ (maxStep x y).2 := by
      unfold maxStep; split
      · exact le_refl _
      · exact le_of_not_lt (by assumption)
    refine ⟨le_trans hx h1, ?_⟩
    intro q hq
    rcases List.mem_cons.mp hq with rfl | hq
    · exact le_trans hy h1
    · exact h2 q hq

lemma argmaxFirst_spec {β : Type} [LinearOrder β] (l : List (String × β)) (hl : l ≠ []) :
    ∃ p, argmaxFirst l = some p ∧ p ∈ l ∧ ∀ q ∈ l, q.2 ≤ p.2 := by
  match l, hl with
  | x :: xs, _ =>
    refine ⟨xs.foldl maxStep x, argmaxFirst_eq_foldl x xs, ?_, ?_⟩
    · rcases foldl_maxStep_mem xs x with h | h
      · rw [h]; exact List.mem_cons_self x xs
      · exact List.mem_cons_of_mem x h
    · intro q hq
      obtain ⟨h1, h2⟩ := le_foldl_maxStep xs x
      rcases List.mem_cons.mp hq with rfl | hq
      · exact h1
      · exact h2 q hq

lemma argmaxKey_spec {β : Type} [LinearOrder β] (l : List (String × β)) (hl : l ≠ []) :
    ∃ p ∈ l, p.1 = argmaxKey l ∧ ∀ q ∈ l, q.2 ≤ p.2 := by
  obtain ⟨p, hsome, hmem, hmax⟩ := argmaxFirst_spec l hl
  exact ⟨p, hmem, by rw [argmaxKey, hsome]; rfl, hmax⟩

lemma argmaxFirst_congr {β : Type} [LinearOrder β] (ids : List String) (f g : String → ℚ)
    (h : ∀ rid ∈ ids, f rid = g rid) :
    argmaxFirst (ids.map (fun rid => (rid, f rid))) =
      argmaxFirst (ids.map (fun rid => (rid, g rid))) := by
  have : ids.map (fun rid => (rid, f rid)) = ids.map (fun rid => (rid, g rid)) :=
    List.map_congr_left (by intro a ha; rw [h a ha])
  rw [this]

lemma mem_firstDedup (a : String) (l : List String) : a ∈ firstDedup l ↔ a ∈ l := by
  induction l with
  | nil => simp [firstDedup]
  | cons x xs ih =>
    simp only [firstDedup, List.mem_cons, List.mem_filter, ih]
    constructor
    · rintro (rfl | ⟨h, _⟩)
      · exact Or.inl rfl
      · exact Or.inr h
    · rintro (rfl | h)
      · exact Or.inl rfl
      · by_cases hax : a = x
        · exact Or.inl hax
        · exact Or.inr ⟨h, by simpa using hax⟩

lemma firstDedup_eq_nil_iff (l : List String) : firstDedup l = [] ↔ l = [] := by
  cases l with
  | nil => simp [firstDedup]
  | cons x xs => simp [firstDedup]

/-- Membership in the produced score maps: every entry of a map of the
shape ids.map (fun rid => (rid, f rid)) has value f of its key. -/
lemma scoremap_snd {p : String × ℚ} (ids : List String) (f : String → ℚ)
    (hp : p ∈ ids.map (fun rid => (rid, f rid))) : p.2 = f p.1 ∧ p.1 ∈ ids := by
  obtain ⟨a, ha, rfl⟩ := List.mem_map.mp hp
  exact ⟨rfl, ha⟩

lemma lookupKey_scoremap (ids : List String) (f : String → ℚ) (rid : String)
    (h : rid ∈ ids) : lookupKey (ids.map (fun r => (r, f r))) rid = some (f rid) := by
  induction ids with
  | nil => cases h
  | cons x xs ih =>
    simp only [List.map_cons, lookupKey]
    by_cases hx : rid = x
    · subst hx; simp
    · rcases List.mem_cons.mp h with rfl | hmem
      · exact absurd rfl hx
      · simp only [if_neg hx]
        exact ih hmem

lemma sortedDesc_length (l : List ℚ) : (sortedDesc l).length = l.length :=
  (List.perm_insertionSort _ l).length_eq

lemma sortedDesc_sorted (l : List ℚ) : List.Sorted (fun a b : ℚ => b ≤ a) (sortedDesc l) :=
  List.sorted_insertionSort _ l

/-- The gap-over-top confidence lies in the unit interval whenever at
least two scores are present. -/
lemma gapConfidence_bounds (scores : List (String × ℚ)) (h2 : 2 ≤ scores.length) :
    0 ≤ gapConfidence scores ∧ gapConfidence scores ≤ 1 := by
  have hlen : 2 ≤ (sortedDesc (scores.map Prod.snd)).length := by
    rw [sortedDesc_length, List.length_map]; exact h2
  obtain ⟨a, b, t, hsort⟩ : ∃ a b t, sortedDesc (scores.map Prod.snd) = a :: b :: t := by
    match hs : sortedDesc (scores.map Prod.snd), hlen with
    | a :: b :: t, _ => exact ⟨a, b, t, rfl⟩
  have hba : b ≤ a := by
    have := sortedDesc_sorted (scores.map Prod.snd)
    rw [hsort, List.sorted_cons] at this
    exact this.1 b (List.mem_cons_self b t)
  rw [gapConfidence, hsort]
  simp only [List.headD_cons, List.getD, List.getElem?_cons_succ, List.getElem?_cons_zero,
    Option.getD_some]
  split
  · rename_i ha
    constructor
    · exact le_min (div_nonneg (sub_nonneg.mpr hba) (le_of_lt ha)) zero_le_one
    · exact min_le_right _ _
  · exact ⟨zero_le_one, le_refl 1⟩

/-- A value found by dict lookup in a Nat-counts map is bounded by the sum
of all counts. -/
lemma lookupKey_le_sum (vc : List (String × Nat)) (k : String) (c : Nat)
    (h : lookupKey vc k = some c) : c ≤ (vc.map Prod.snd).sum := by
  induction vc with
  | nil => simp [lookupKey] at h
  | cons p rest ih =>
    obtain ⟨pk, pv⟩ := p
    rw [lookupKey] at h
    by_cases hk : k = pk
    · rw [if_pos hk] at h
      injection h with h
      simp only [List.map_cons, List.sum_cons]
      omega
    · rw [if_neg hk] at h
      simp only [List.map_cons, List.sum_cons]
      exact le_trans (ih h) (Nat.le_add_left _ _)

/-- A juror evaluation with one scored response, used as a concrete input. -/
def evOne : JurorEvaluation :=
  { juror_name := "Juror1", response_scores := [("response_1", [("factuality", 5)])],
    juror_weight := 1 }

/-- A juror evaluation scoring no responses at all. -/
def evNoResp : JurorEvaluation :=
  { juror_name := "Juror1", response_scores := [], juror_weight := 1 }

/-- A fixed voting result returned by constant custom strategies. -/
def rConst : VotingResult :=
  { winner := "w", method := PyMethod.custom }

/-- A custom strategy ignoring its input and returning rConst. -/
def fConst : CustomFn := fun _ => PyValue.result rConst

/-- A custom strategy returning a non-VotingResult value. -/
def fBad : CustomFn := fun _ => PyValue.other

/-- C2, counterexample.  With a registered constant strategy, aggregate
with the custom selector succeeds on the empty evaluation sequence and on
a sequence whose union of response ids is empty: custom_vote performs
neither precondition check, so no EmptyInputError or NoResponsesError
arises and a VotingResult is produced. -/
theorem c2_custom_skips_checks :
    aggregate (register_custom_function emptyRegistry "k" fConst) [] PyMethod.custom
      (some "k") = .ok (some rConst) ∧
    aggregate (register_custom_function emptyRegistry "k" fConst) [evNoResp]
      PyMethod.custom (some "k") = .ok (some rConst) := by
  constructor <;> rfl

/-- C2, amended.  For the five built-in method selectors, aggregate fails
with the EmptyInputError kind on an empty evaluation sequence, and with
the NoResponsesError kind on a non-empty sequence whose union of response
identifiers is empty; for the custom selector with a non-empty registered
name neither check is performed and the registered function is applied
directly, its outcome becoming the outcome of aggregate. -/
theorem c2_builtin_preconditions (R : Registry) (name : Option String) (m : PyMethod)
    (hm : m ∈ [PyMethod.majority, PyMethod.average, PyMethod.weighted,
               PyMethod.ranked, PyMethod.consensus])
    (evals : List JurorEvaluation) :
    (evals = [] → aggregate R evals m name = .error .emptyInput) ∧
    (evals ≠ [] → responseIds evals = [] → aggregate R evals m name = .error .noResponses) ∧
    (∀ n : String, n ≠ "" →
      aggregate R evals PyMethod.custom (some n) = (custom_vote R evals n).map some) := by
  refine ⟨?_, ?_, ?_⟩
  · intro h
    subst h
    rcases (by simpa using hm : m = PyMethod.majority ∨ m = PyMethod.average ∨
      m = PyMethod.weighted ∨ m = PyMethod.ranked ∨ m = PyMethod.consensus) with
      rfl | rfl | rfl | rfl | rfl <;> rfl
  · intro hne hids
    rcases (by simpa using hm : m = PyMethod.majority ∨ m = PyMethod.average ∨
      m = PyMethod.weighted ∨ m = PyMethod.ranked ∨ m = PyMethod.consensus) with
      rfl | rfl | rfl | rfl | rfl <;>
      simp [aggregate, majority_vote, majorityVoteWith, average_vote, averageVoteWith,
        weighted_vote, weightedVoteWith, ranked_vote, rankedVoteWith,
        consensus_vote, consensusVoteWith, hne, hids, Except.map]
  · intro n hn
    simp [aggregate, optNameFalsy, hn]

/-- C2, witness for the amended theorem at the majority selector. -/
theorem c2_builtin_preconditions_witness :
    (PyMethod.majority ∈ [PyMethod.majority, PyMethod.average, PyMethod.weighted,
       PyMethod.ranked, PyMethod.consensus] ∧
     ([] : List JurorEvaluation) = [] ∧ [evNoResp] ≠ [] ∧ responseIds [evNoResp] = [] ∧
     ("k" : String) ≠ "") ∧
    aggregate emptyRegistry [] PyMethod.majority none = .error .emptyInput ∧
    aggregate emptyRegistry [evNoResp] PyMethod.majority none = .error .noResponses ∧
    aggregate emptyRegistry [evNoResp] PyMethod.custom (some "k") =
      (custom_vote emptyRegistry [evNoResp] "k").map some := by
  refine ⟨⟨by decide, rfl, by decide, by decide, by decide⟩, ?_, ?_, ?_⟩
  · exact (c2_builtin_preconditions emptyRegistry none PyMethod.majority (by decide) []).1 rfl
  · exact ((c2_builtin_preconditions emptyRegistry none PyMethod.majority (by decide)
      [evNoResp]).2.1 (by decide) (by decide))
  · exact ((c2_builtin_preconditions emptyRegistry none PyMethod.majority (by decide)
      [evNoResp]).2.2 "k" (by decide))

/-- C3, counterexample.  aggregate called with a method selector outside
the six recognized kinds does not fail: the if/elif chain falls through
and the Python function silently returns None (here .ok none), not an
UnknownMethodError-kind failure. -/
theorem c3_aggregate_returns_none :
    aggregate emptyRegistry [evOne] (PyMethod.other "bogus") none = .ok none := rfl

/-- C3, amended.  A method selector outside the six recognized kinds makes
aggregate silently return a non-result (Python None) rather than fail,
while confidence calculation on a hand-constructed VotingResult whose
method matches none of the six values does fail with an
UnknownMethodError-kind error. -/
theorem c3_unknown_method (R : Registry) (evals : List JurorEvaluation)
    (name : Option String) (s : String) (r : VotingResult)
    (hr : r.method = PyMethod.other s) :
    aggregate R evals (PyMethod.other s) name = .ok none ∧
    calculate_confidence r = .error (.unknownMethod (PyMethod.other s)) := by
  constructor
  · rfl
  · rw [calculate_confidence, hr]

/-- C3, witness for the amended theorem. -/
theorem c3_unknown_method_witness :
    ({ winner := "a", method := PyMethod.other "bogus" } : VotingResult).method =
      PyMethod.other "bogus" ∧
    aggregate emptyRegistry [evOne] (PyMethod.other "bogus") none = .ok none ∧
    calculate_confidence { winner := "a", method := PyMethod.other "bogus" } =
      .error (.unknownMethod (PyMethod.other "bogus")) := by
  refine ⟨rfl, ?_⟩
  exact c3_unknown_method emptyRegistry [evOne] none "bogus"
    { winner := "a", method := PyMethod.other "bogus" } rfl

/-- C8.  A registered custom strategy returning a non-conforming value
fails with the InvalidStrategyResultError kind (the malformed value is
never returned); invoking an unregistered name fails with the
UnknownStrategyError kind, in particular after a register/unregister
round trip of that name. -/
theorem c8_registry_errors (R : Registry) (name : String) (f : CustomFn)
    (evals : List JurorEvaluation) :
    (R name = some f → f evals = PyValue.other →
      custom_vote R evals name = .error (.invalidStrategyResult name)) ∧
    (R name = none → custom_vote R evals name = .error (.unknownStrategy name)) ∧
    custom_vote (unregister_custom_function (register_custom_function R name f) name)
      evals name = .error (.unknownStrategy name) := by
  refine ⟨?_, ?_, ?_⟩
  · intro hreg hother
    simp only [custom_vote, hreg, hother]
  · intro hnone
    simp only [custom_vote, hnone]
  · have : unregister_custom_function (register_custom_function R name f) name name =
        none := by
      simp [unregister_custom_function]
    simp only [custom_vote, this]

/-- C8, witness. -/
theorem c8_registry_errors_witness :
    (register_custom_function emptyRegistry "bad" fBad "bad" = some fBad ∧
     fBad [] = PyValue.other ∧ emptyRegistry "nope" = none) ∧
    custom_vote (register_custom_function emptyRegistry "bad" fBad) [] "bad" =
      .error (.invalidStrategyResult "bad") ∧
    custom_vote emptyRegistry [] "nope" = .error (.unknownStrategy "nope") ∧
    custom_vote (unregister_custom_function
        (register_custom_function emptyRegistry "X" fConst) "X") [] "X" =
      .error (.unknownStrategy "X") := by
  refine ⟨⟨rfl, rfl, rfl⟩, ?_, ?_, ?_⟩
  · exact (c8_registry_errors (register_custom_function emptyRegistry "bad" fBad)
      "bad" fBad []).1 rfl rfl
  · exact (c8_registry_errors emptyRegistry "nope" fBad []).2.1 rfl
  · exact (c8_registry_errors emptyRegistry "X" fConst []).2.2

/-- C10.  Whatever VotingResult instance a registered custom function
returns is passed through custom_vote unchanged: only the type of the
returned value is checked, its content is not validated. -/
theorem c10_passthrough (R : Registry) (name : String) (f : CustomFn)
    (evals : List JurorEvaluation) (r : VotingResult)
    (hreg : R name = some f) (hres : f evals = PyValue.result r) :
    custom_vote R evals name = .ok r := by
  simp only [custom_vote, hreg, hres]

/-- A custom strategy returning a result whose winner appears in no input
evaluation and whose populated score map does not match its method. -/
def rWeird : VotingResult :=
  { winner := "ghost", method := PyMethod.majority, custom_scores := some [("x", 1)] }

/-- A custom strategy constantly returning rWeird. -/
def fWeird : CustomFn := fun _ => PyValue.result rWeird

/-- C10, witness: the nonconforming-but-typed result is returned as-is. -/
theorem c10_passthrough_witness :
    (register_custom_function emptyRegistry "w" fWeird "w" = some fWeird ∧
     fWeird [evOne] = PyValue.result rWeird) ∧
    custom_vote (register_custom_function emptyRegistry "w" fWeird) [evOne] "w" =
      .ok rWeird := by
  refine ⟨⟨rfl, rfl⟩, ?_⟩
  exact c10_passthrough (register_custom_function emptyRegistry "w" fWeird) "w" fWeird
    [evOne] rWeird rfl rfl

/-- C9, counterexample.  The JurorEvaluation constructor performs no
validation: an evaluation with a negative juror weight is constructible,
so constructing a JurorEvaluation does not establish the non-negativity
invariant. -/
theorem c9_negative_weight_constructible :
    (JurorEvaluation.mk "J" [] (-1)).juror_weight < 0 := by
  norm_num

/-- C9, amended.  The non-negativity of juror weights is established by
the pydantic validation of JurorConfig (weight has the constraint ge=0),
not by JurorEvaluation itself; every evaluation the engine builds from a
validated JurorConfig carries a non-negative weight, while a directly
constructed JurorEvaluation can carry a negative one. -/
theorem c9_config_weight_nonneg (n : String) (w : ℚ) (scores : RespScores)
    (cfg : JurorConfig) (h : mkJurorConfig n w = some cfg) :
    0 ≤ (engineEvaluation cfg scores).juror_weight := by
  rw [mkJurorConfig] at h
  split at h
  · injection h with h
    subst h
    simpa [engineEvaluation] using (by assumption : 0 ≤ w)
  · cases h

/-- C9, witness. -/
theorem c9_config_weight_nonneg_witness :
    mkJurorConfig "Juror1" 1 = some { name := "Juror1", weight := 1 } ∧
    0 ≤ (engineEvaluation { name := "Juror1", weight := 1 } []).juror_weight := by
  refine ⟨rfl, ?_⟩
  exact c9_config_weight_nonneg "Juror1" 1 [] { name := "Juror1", weight := 1 } rfl

/-- C5.  On every valid input the ranked and consensus strategies produce
exactly the average strategy's score map and winner; the three results
differ only in the method label and in which score-map field is populated. -/
theorem c5_ranked_consensus_equal_average (evals : List JurorEvaluation)
    (h1 : evals ≠ []) (h2 : responseIds evals ≠ []) :
    ∃ ra, average_vote evals = .ok ra ∧
      ranked_vote evals =
        .ok { ra with
              method := PyMethod.ranked, average_scores := none,
              ranked_scores := ra.average_scores } ∧
      consensus_vote evals =
        .ok { ra with
              method := PyMethod.consensus, average_scores := none,
              consensus_scores := ra.average_scores } := by
  refine ⟨{ winner := argmaxKey (averageScoresMap evals (responseIds evals)),
            method := PyMethod.average,
            average_scores := some (averageScoresMap evals (responseIds evals)) },
    ?_, ?_, ?_⟩ <;>
    simp [average_vote, averageVoteWith, ranked_vote, rankedVoteWith,
      consensus_vote, consensusVoteWith, rankedScoresMap, consensusScoresMap,
      averageScoresMap, h1, h2]

/-- C5, witness at a concrete one-juror input. -/
theorem c5_ranked_consensus_equal_average_witness :
    ([evOne] ≠ [] ∧ responseIds [evOne] ≠ []) ∧
    (∃ ra, average_vote [evOne] = .ok ra ∧
      ranked_vote [evOne] =
        .ok { ra with
              method := PyMethod.ranked, average_scores := none,
              ranked_scores := ra.average_scores } ∧
      consensus_vote [evOne] =
        .ok { ra with
              method := PyMethod.consensus, average_scores := none,
              consensus_scores := ra.average_scores }) := by
  exact ⟨⟨by decide, by decide⟩,
    c5_ranked_consensus_equal_average [evOne] (by decide) (by decide)⟩

/-- Every juror's weighted contribution equals the missing-as-zero total
score times the weight (a skipped absent response contributes 0 = 0 * w). -/
lemma weightedContrib_eq (rid : String) (e : JurorEvaluation) :
    weightedContrib rid e = totalScore e rid * e.juror_weight := by
  rw [weightedContrib, totalScore]
  cases lookupKey e.response_scores rid with
  | some crits => rfl
  | none => rw [zero_mul]

/-- A juror evaluation with a single response and a negative weight. -/
def evNeg : JurorEvaluation :=
  { juror_name := "J", response_scores := [("a", [("c", 5)])], juror_weight := -1 }

/-- C4, counterexample.  With one juror of weight -1 scoring response a
with 5, the total weight is -1, which is not 0, so the claimed formula
gives (5 * -1) / -1 = 5; the code however tests total_weight > 0 and
stores 0.  The claim's score equation is false at this input. -/
theorem c4_negative_weight_formula_fails :
    (weighted_vote [evNeg]).map (fun r => r.weighted_scores) = .ok (some [("a", 0)]) ∧
    totalWeight [evNeg] ≠ 0 ∧
    (([evNeg].map (fun e => totalScore e "a" * e.juror_weight)).sum) / totalWeight [evNeg]
      = 5 ∧
    (0 : ℚ) ≠ 5 := by
  refine ⟨?_, ?_, ?_, by norm_num⟩
  · simp [weighted_vote, weightedVoteWith, weightedScoresMap, responseIds, firstDedup,
      totalWeight, weightedContrib, sumValues, evNeg, argmaxKey, argmaxFirst, lookupKey,
      Except.map]
  · simp [totalWeight, evNeg]
  · simp [totalScore, totalWeight, sumValues, evNeg, lookupKey]

/-- C4, amended.  On every valid input the weighted strategy populates
weighted_scores with, per response id, the sum over all jurors of total
score times weight divided by the total weight when the total weight is
positive, and 0 when the total weight is not positive (the source guard is
total_weight > 0, not total_weight != 0); absent responses contribute 0;
the winner attains the maximal weighted score. -/
theorem c4_weighted_formula (evals : List JurorEvaluation)
    (h1 : evals ≠ []) (h2 : responseIds evals ≠ []) :
    ∃ r, weighted_vote evals = .ok r ∧
      r.weighted_scores = some (weightedScoresMap evals (responseIds evals)) ∧
      (∀ rid ∈ responseIds evals,
        lookupKey (weightedScoresMap evals (responseIds evals)) rid =
          some (if 0 < totalWeight evals then
            ((evals.map (fun e => totalScore e rid * e.juror_weight)).sum) /
              totalWeight evals
          else 0)) ∧
      (∃ p ∈ weightedScoresMap evals (responseIds evals), p.1 = r.winner ∧
        ∀ q ∈ weightedScoresMap evals (responseIds evals), q.2 ≤ p.2) := by
  have hform : ∀ rid, (evals.map (weightedContrib rid)).sum =
      (evals.map (fun e => totalScore e rid * e.juror_weight)).sum := by
    intro rid
    exact congrArg List.sum (List.map_congr_left (fun e _ => weightedContrib_eq rid e))
  have hmap_ne : weightedScoresMap evals (responseIds evals) ≠ [] := by
    rw [weightedScoresMap]
    simpa using h2
  refine ⟨{ winner := argmaxKey (weightedScoresMap evals (responseIds evals)),
            method := PyMethod.weighted,
            weighted_scores := some (weightedScoresMap evals (responseIds evals)) },
    ?_, rfl, ?_, ?_⟩
  · simp [weighted_vote, weightedVoteWith, h1, h2]
  · intro rid hrid
    rw [weightedScoresMap, lookupKey_scoremap _ _ rid hrid, hform rid]
  · obtain ⟨p, hp, hkey, hmax⟩ := argmaxKey_spec _ hmap_ne
    exact ⟨p, hp, hkey, hmax⟩

/-- C4, witness at a concrete two-juror input. -/
theorem c4_weighted_formula_witness :
    ([evOne, evNoResp] ≠ [] ∧ responseIds [evOne, evNoResp] ≠ []) ∧
    (∃ r, weighted_vote [evOne, evNoResp] = .ok r ∧
      r.weighted_scores = some (weightedScoresMap [evOne, evNoResp]
        (responseIds [evOne, evNoResp])) ∧
      (∀ rid ∈ responseIds [evOne, evNoResp],
        lookupKey (weightedScoresMap [evOne, evNoResp] (responseIds [evOne, evNoResp]))
            rid =
          some (if 0 < totalWeight [evOne, evNoResp] then
            (([evOne, evNoResp].map (fun e => totalScore e rid * e.juror_weight)).sum) /
              totalWeight [evOne, evNoResp]
          else 0)) ∧
      (∃ p ∈ weightedScoresMap [evOne, evNoResp] (responseIds [evOne, evNoResp]),
        p.1 = r.winner ∧
        ∀ q ∈ weightedScoresMap [evOne, evNoResp] (responseIds [evOne, evNoResp]),
          q.2 ≤ p.2)) := by
  exact ⟨⟨by decide, by decide⟩, c4_weighted_formula [evOne, evNoResp] (by decide) (by decide)⟩

/-- A juror evaluation with weight 0 whose best response is listed second. -/
def evZero : JurorEvaluation :=
  { juror_name := "J", response_scores := [("a", [("c", 1)]), ("b", [("c", 5)])],
    juror_weight := 0 }

/-- C6, counterexample.  With a single juror of weight 0 (all jurors
trivially have equal weight), the total weight is 0, every weighted score
collapses to 0, and the weighted winner becomes the first enumerated
response a, while the average winner is the higher-scored b. -/
theorem c6_zero_weight_diverges :
    evZero.juror_weight = 0 ∧
    (weighted_vote [evZero]).map (fun r => r.winner) = .ok "a" ∧
    (average_vote [evZero]).map (fun r => r.winner) = .ok "b" ∧
    ("a" : String) ≠ "b" := by
  refine ⟨rfl, ?_, ?_, by decide⟩
  · simp [weighted_vote, weightedVoteWith, weightedScoresMap, responseIds, firstDedup,
      totalWeight, weightedContrib, sumValues, evZero, argmaxKey, argmaxFirst, lookupKey,
      Except.map]
  · simp [average_vote, averageVoteWith, averageScoresMap, responseIds, firstDedup,
      meanQ, totalScore, sumValues, evZero, argmaxKey, argmaxFirst, lookupKey,
      Except.map]

/-- C6, amended.  When all jurors share one positive weight, the weighted
strategy selects the same winner as the average strategy on the same
input (with weight 0 the weighted scores all collapse to 0 and the two
strategies can disagree). -/
theorem c6_equal_weights_same_winner (evals : List JurorEvaluation)
    (h1 : evals ≠ []) (h2 : responseIds evals ≠ []) (w : ℚ) (hw : 0 < w)
    (hall : ∀ e ∈ evals, e.juror_weight = w) :
    ∃ ra rw, average_vote evals = .ok ra ∧ weighted_vote evals = .ok rw ∧
      rw.winner = ra.winner := by
  have hlen : 0 < evals.length := List.length_pos.mpr h1
  have hweights : evals.map (fun e => e.juror_weight) = evals.map (fun _ => w) :=
    List.map_congr_left (fun e he => hall e he)
  have htot : totalWeight evals = evals.length * w := by
    rw [totalWeight, hweights]
    simp [List.map_const', List.sum_replicate, nsmul_eq_mul]
  have htotpos : 0 < totalWeight evals := by
    rw [htot]
    exact mul_pos (by exact_mod_cast hlen) hw
  have hpoint : ∀ rid ∈ responseIds evals,
      (if 0 < totalWeight evals then
        (evals.map (weightedContrib rid)).sum / totalWeight evals
      else 0) = meanQ (evals.map (fun e => totalScore e rid)) := by
    intro rid _
    rw [if_pos htotpos, htot]
    have hnum : (evals.map (weightedContrib rid)).sum =
        (evals.map (fun e => totalScore e rid)).sum * w := by
      have : evals.map (weightedContrib rid) =
          evals.map (fun e => totalScore e rid * w) :=
        List.map_congr_left (fun e he => by
          rw [weightedContrib_eq rid e, hall e he])
      rw [this]
      exact List.sum_map_mul_right evals (fun e => totalScore e rid) w
    rw [hnum, meanQ, List.length_map]
    rw [mul_div_mul_right _ _ (ne_of_gt hw)]
  have hmaps : weightedScoresMap evals (responseIds evals) =
      averageScoresMap evals (responseIds evals) :=
    List.map_congr_left (fun rid hrid => by rw [hpoint rid hrid])
  refine ⟨{ winner := argmaxKey (averageScoresMap evals (responseIds evals)),
            method := PyMethod.average,
            average_scores := some (averageScoresMap evals (responseIds evals)) },
    { winner := argmaxKey (weightedScoresMap evals (responseIds evals)),
      method := PyMethod.weighted,
      weighted_scores := some (weightedScoresMap evals (responseIds evals)) },
    ?_, ?_, ?_⟩
  · simp [average_vote, averageVoteWith, h1, h2]
  · simp [weighted_vote, weightedVoteWith, h1, h2]
  · rw [hmaps]

/-- C6, witness at a concrete two-juror equal-weight input. -/
theorem c6_equal_weights_same_winner_witness :
    ([evOne, evNoResp] ≠ [] ∧ responseIds [evOne, evNoResp] ≠ [] ∧ (0 : ℚ) < 1 ∧
      ∀ e ∈ [evOne, evNoResp], e.juror_weight = 1) ∧
    (∃ ra rw, average_vote [evOne, evNoResp] = .ok ra ∧
      weighted_vote [evOne, evNoResp] = .ok rw ∧ rw.winner = ra.winner) := by
  exact ⟨⟨by decide, by decide, by norm_num, by decide⟩,
    c6_equal_weights_same_winner [evOne, evNoResp] (by decide) (by decide) 1
      (by norm_num) (by decide)⟩

/-- The winner attains the maximal value of a score map. -/
def winnerMax (m : List (String × ℚ)) (w : String) : Prop :=
  ∃ p ∈ m, p.1 = w ∧ ∀ q ∈ m, q.2 ≤ p.2

/-- The confidence computed for a result is a value in the unit interval,
and equals 1 when the score map has fewer than 2 entries. -/
def confInUnit (m : List (String × ℚ)) (r : VotingResult) : Prop :=
  ∃ c, calculate_confidence r = .ok c ∧ 0 ≤ c ∧ c ≤ 1 ∧ (m.length < 2 → c = 1)

/-- The confidence value of the score-map branches is in the unit interval
and is 1 below two entries. -/
lemma builtin_conf_val (m : List (String × ℚ)) :
    0 ≤ (if m.length < 2 then (1 : ℚ) else gapConfidence m) ∧
    (if m.length < 2 then (1 : ℚ) else gapConfidence m) ≤ 1 ∧
    (m.length < 2 → (if m.length < 2 then (1 : ℚ) else gapConfidence m) = 1) := by
  by_cases h : m.length < 2
  · rw [if_pos h]
    exact ⟨zero_le_one, le_refl 1, fun _ => rfl⟩
  · rw [if_neg h]
    obtain ⟨h0, h1⟩ := gapConfidence_bounds m (le_of_not_lt h)
    exact ⟨h0, h1, fun hlt => absurd hlt h⟩

/-- The majority confidence value (winner votes over total votes, 0 when
no votes) is in the unit interval for every counts dict. -/
lemma majority_conf_val (vc : List (String × Nat)) (w : String) :
    0 ≤ (if 0 < (vc.map Prod.snd).sum then
          (((lookupKey vc w).getD 0 : ℚ)) / (((vc.map Prod.snd).sum : ℚ)) else 0) ∧
    (if 0 < (vc.map Prod.snd).sum then
          (((lookupKey vc w).getD 0 : ℚ)) / (((vc.map Prod.snd).sum : ℚ)) else 0) ≤ 1 := by
  by_cases h : 0 < (vc.map Prod.snd).sum
  · rw [if_pos h]
    have htpos : (0 : ℚ) < ((vc.map Prod.snd).sum : ℚ) := by exact_mod_cast h
    constructor
    · exact div_nonneg (by positivity) (le_of_lt htpos)
    · rw [div_le_one htpos]
      cases hlk : lookupKey vc w with
      | none => simpa using le_of_lt htpos
      | some c =>
        have := lookupKey_le_sum vc w c hlk
        simpa using (by exact_mod_cast this : (c : ℚ) ≤ ((vc.map Prod.snd).sum : ℚ))
  · rw [if_neg h]
    exact ⟨le_refl 0, zero_le_one⟩

/-- The conjunction of the winner-argmax and confidence-bound properties
over the four score-map strategies and the confidence bound for majority. -/
def c7Prop (evals : List JurorEvaluation) : Prop :=
  (∃ r m, average_vote evals = .ok r ∧ r.average_scores = some m ∧
    winnerMax m r.winner ∧ confInUnit m r) ∧
  (∃ r m, weighted_vote evals = .ok r ∧ r.weighted_scores = some m ∧
    winnerMax m r.winner ∧ confInUnit m r) ∧
  (∃ r m, ranked_vote evals = .ok r ∧ r.ranked_scores = some m ∧
    winnerMax m r.winner ∧ confInUnit m r) ∧
  (∃ r m, consensus_vote evals = .ok r ∧ r.consensus_scores = some m ∧
    winnerMax m r.winner ∧ confInUnit m r) ∧
  (∃ r c, majority_vote evals = .ok r ∧ calculate_confidence r = .ok c ∧
    0 ≤ c ∧ c ≤ 1)

/-- C7.  For every result produced by average, weighted, ranked or
consensus on valid input, the winner attains the maximum of the populated
score map, the confidence lies in the unit interval and equals 1 when
fewer than 2 responses are scored; the confidence of a produced majority
result also lies in the unit interval. -/
theorem c7_winner_argmax_confidence (evals : List JurorEvaluation)
    (h1 : evals ≠ []) (h2 : responseIds evals ≠ []) : c7Prop evals := by
  have hmapne : ∀ f : String → ℚ,
      (responseIds evals).map (fun rid => (rid, f rid)) ≠ [] := by
    intro f
    simpa using h2
  refine ⟨?_, ?_, ?_, ?_, ?_⟩
  · refine ⟨{ winner := argmaxKey (averageScoresMap evals (responseIds evals)),
              method := PyMethod.average,
              average_scores := some (averageScoresMap evals (responseIds evals)) },
      averageScoresMap evals (responseIds evals), ?_, rfl, ?_, ?_⟩
    · simp [average_vote, averageVoteWith, h1, h2]
    · exact argmaxKey_spec _ (hmapne _)
    · exact ⟨_, rfl, builtin_conf_val (averageScoresMap evals (responseIds evals))⟩
  · refine ⟨{ winner := argmaxKey (weightedScoresMap evals (responseIds evals)),
              method := PyMethod.weighted,
              weighted_scores := some (weightedScoresMap evals (responseIds evals)) },
      weightedScoresMap evals (responseIds evals), ?_, rfl, ?_, ?_⟩
    · simp [weighted_vote, weightedVoteWith, h1, h2]
    · exact argmaxKey_spec _ (hmapne _)
    · exact ⟨_, rfl, builtin_conf_val (weightedScoresMap evals (responseIds evals))⟩
  · refine ⟨{ winner := argmaxKey (rankedScoresMap evals (responseIds evals)),
              method := PyMethod.ranked,
              ranked_scores := some (rankedScoresMap evals (responseIds evals)) },
      rankedScoresMap evals (responseIds evals), ?_, rfl, ?_, ?_⟩
    · simp [ranked_vote, rankedVoteWith, h1, h2]
    · exact argmaxKey_spec _ (hmapne _)
    · exact ⟨_, rfl, builtin_conf_val (rankedScoresMap evals (responseIds evals))⟩
  · refine ⟨{ winner := argmaxKey (consensusScoresMap evals (responseIds evals)),
              method := PyMethod.consensus,
              consensus_scores := some (consensusScoresMap evals (responseIds evals)) },
      consensusScoresMap evals (responseIds evals), ?_, rfl, ?_, ?_⟩
    · simp [consensus_vote, consensusVoteWith, h1, h2]
    · exact argmaxKey_spec _ (hmapne _)
    · exact ⟨_, rfl, builtin_conf_val (consensusScoresMap evals (responseIds evals))⟩
  · refine ⟨{ winner := majorityWinner (evals.map (fun e =>
                argmaxKey (perJurorTotals (responseIds evals) e))),
              vote_counts := some (voteCounts (evals.map (fun e =>
                argmaxKey (perJurorTotals (responseIds evals) e)))),
              method := PyMethod.majority },
      _, ?_, rfl, ?_⟩
    · simp [majority_vote, majorityVoteWith, h1, h2]
    · exact majority_conf_val _ _

/-- C7, witness at a concrete one-juror input. -/
theorem c7_winner_argmax_confidence_witness :
    ([evOne] ≠ [] ∧ responseIds [evOne] ≠ []) ∧ c7Prop [evOne] :=
  ⟨⟨by decide, by decide⟩, c7_winner_argmax_confidence [evOne] (by decide) (by decide)⟩

/-- Juror A of the specification's tie example: weight 2, scores resp1
with 9 and resp2 with 6. -/
def jurA : JurorEvaluation :=
  { juror_name := "A", response_scores := [("resp1", [("s", 9)]), ("resp2", [("s", 6)])],
    juror_weight := 2 }

/-- Juror B of the specification's tie example: weight 1, scores resp1
with 4 and resp2 with 10. -/
def jurB : JurorEvaluation :=
  { juror_name := "B", response_scores := [("resp1", [("s", 4)]), ("resp2", [("s", 10)])],
    juror_weight := 1 }

/-- C1.  On the specification's two-juror example both responses tie at
weighted score 22/3, and the winner is whichever tied id the response-id
enumeration lists first.  With the first-seen enumeration the winner is
resp1, as the claim states; but the source enumerates the ids as
list(set(...)), and under the equally possible CPython set iteration
order resp2-before-resp1 (a permutation of the same set) the same
algorithm elects resp2.  The first-seen tie-break is therefore not
guaranteed by the code, whose tie winner depends on the hash-seed
dependent set order. -/
theorem c1_tiebreak_depends_on_set_order :
    responseIds [jurA, jurB] = ["resp1", "resp2"] ∧
    List.Perm ["resp2", "resp1"] (responseIds [jurA, jurB]) ∧
    (weightedVoteWith [jurA, jurB] (responseIds [jurA, jurB])).map (fun r => r.winner) =
      .ok "resp1" ∧
    (weightedVoteWith [jurA, jurB] ["resp2", "resp1"]).map (fun r => r.winner) =
      .ok "resp2" ∧
    (weightedVoteWith [jurA, jurB] (responseIds [jurA, jurB])).map
      (fun r => r.weighted_scores) = .ok (some [("resp1", 22/3), ("resp2", 22/3)]) := by
  refine ⟨by decide, by decide, ?_, ?_, ?_⟩
  · simp [weightedVoteWith, weightedScoresMap, responseIds, firstDedup, totalWeight,
      weightedContrib, sumValues, jurA, jurB, argmaxKey, argmaxFirst, lookupKey,
      Except.map]
    norm_num
  · simp [weightedVoteWith, weightedScoresMap, totalWeight,
      weightedContrib, sumValues, jurA, jurB, argmaxKey, argmaxFirst, lookupKey,
      Except.map]
    norm_num
  · simp [weightedVoteWith, weightedScoresMap, responseIds, firstDedup, totalWeight,
      weightedContrib, sumValues, jurA, jurB, argmaxKey, argmaxFirst, lookupKey,
      Except.map]
    norm_num

end OpenJury
